import Mathlib

/-!
Verification of the market-maker core (spread engine, risk gate, inventory
shaper, sizing, requote gate, price oracle, backtest fills) against its
natural-language specification.

The TypeScript sources are shallowly embedded: JS `number` arithmetic is
modelled by `ℚ` (all the quantities involved are produced by field
operations on finite inputs); the one place where the source can actually
produce a non-finite value — the unguarded division in
`RiskManager.checkTotalExposure` — is modelled explicitly with `JsNum`,
which mirrors IEEE division results `finite / +∞ / -∞ / NaN` for a zero
denominator.  Timestamps are `ℤ` (milliseconds).  Asynchronous effects
(venue SDK calls, HTTP fetches) are modelled by passing their results in as
parameters and recording outbound calls as an `Action` trace.
-/

namespace MM

/-- One price level of an orderbook: `{price, size}`. -/
structure OrderbookLevel where
  price : ℚ
  size : ℚ
deriving DecidableEq

/-- An orderbook snapshot as delivered by the venue SDK. -/
structure Orderbook where
  marketId : ℕ
  bids : List OrderbookLevel
  asks : List OrderbookLevel
deriving DecidableEq

/-- `config.ts` `SpreadConfig`. -/
structure SpreadConfig where
  min : ℚ
  max : ℚ
  depthLevels : ℕ
deriving DecidableEq

/-- `config.ts` `RiskConfig`. -/
structure RiskConfig where
  minMarginFraction : ℚ
  maxExposurePerSide : ℚ
  maxExposurePerMarket : ℚ
  maxTotalExposure : ℚ
  minFreeCollateral : ℚ
deriving DecidableEq

/-- `config.ts` `QuantityMode`. -/
inductive QuantityMode where
  | fixed
  | percentage
  | tiered
deriving DecidableEq

/-- `config.ts` `AutoHedgeConfig`. -/
structure AutoHedgeConfig where
  enabled : Bool
  imbalanceThreshold : ℚ
deriving DecidableEq

/-- The part of `config.ts` `BotConfig` the quoting pipeline reads.
`assets` maps a market id to the configured per-market `bias` when the
market has an entry in the `assets` record (`CONFIG.assets[marketId]?.bias`),
`none` when absent. -/
structure BotConfig where
  quantityMode : QuantityMode
  fixedSize : ℚ
  percentPerLevel : ℚ
  tieredMultipliers : List ℚ
  spread : SpreadConfig
  risk : RiskConfig
  maxLevels : ℕ
  autoHedge : AutoHedgeConfig
  inventorySkewEnabled : Bool
  inventorySkewFactor : ℚ
  requoteThreshold : ℚ
  assets : ℕ → Option ℚ
  defaultBias : ℚ

/-- `user.balances[USDC_MINT_INDEX]`: `{amount, availableAmount}`. -/
structure Balance where
  amount : ℚ
  availableAmount : ℚ
deriving DecidableEq

/-- A perp position: `{size, entryPrice}` (signed size, positive = long). -/
structure Position where
  size : ℚ
  entryPrice : ℚ
deriving DecidableEq

/-- The slice of `NordUser` account state the core reads: the USDC balance
entry (`balances[0]`, `none` when the entry is missing) and the keyed
position map `user.positions` as an association list. -/
structure NordUser where
  usdcBalance : Option Balance
  positions : List (ℕ × Position)

/-- `user.positions[marketId]` (an absent key yields `undefined`). -/
def getPosition (u : NordUser) (marketId : ℕ) : Option Position :=
  (u.positions.find? (fun p => p.1 = marketId)).map Prod.snd

/-- `balance?.availableAmount || 0` — the free collateral; `0` both when
the balance entry is missing and when the stored amount is `0`. -/
def freeCollateral (u : NordUser) : ℚ :=
  match u.usdcBalance with
  | some b => b.availableAmount
  | none => 0

/-- `balance?.amount || 0` — the total collateral. -/
def totalCollateral (u : NordUser) : ℚ :=
  match u.usdcBalance with
  | some b => b.amount
  | none => 0

/-! ## SpreadCalculator (`src/core/spread.ts`) -/

/-- `sumDepth`: total size over a list of levels (`reduce` with `+`). -/
def sumDepth (levels : List OrderbookLevel) : ℚ :=
  levels.foldl (fun s l => s + l.size) 0

/-- The record returned by `computeDynamicSpread`. -/
structure SpreadCalculation where
  spread : ℚ
  imbalance : ℚ
  bidDepth : ℚ
  askDepth : ℚ
deriving DecidableEq

/-- `Math.max(lo, Math.min(hi, value))` — the `clamp` helper. -/
def clamp (value lo hi : ℚ) : ℚ :=
  max lo (min hi value)

/-- `SpreadCalculator.computeDynamicSpread`, line for line. -/
def computeDynamicSpread (cfg : BotConfig) (orderbook : Orderbook) : SpreadCalculation :=
  let depthLevels := Nat.min cfg.spread.depthLevels
    (Nat.min orderbook.bids.length orderbook.asks.length)
  let bidDepth := sumDepth (orderbook.bids.take depthLevels)
  let askDepth := sumDepth (orderbook.asks.take depthLevels)
  let totalDepth := bidDepth + askDepth
  let imbalance := if totalDepth > 0 then (bidDepth - askDepth) / totalDepth else 0
  let imbalanceFactor := |imbalance|
  let spread := cfg.spread.min + imbalanceFactor * (cfg.spread.max - cfg.spread.min)
  let clampedSpread := clamp spread cfg.spread.min cfg.spread.max
  ⟨clampedSpread, imbalance, bidDepth, askDepth⟩

/-- `SpreadCalculator.getMidPrice`: `(bestBid + bestAsk)/2`, `null` when a
side is empty. -/
def getMidPrice (orderbook : Orderbook) : Option ℚ :=
  match orderbook.bids, orderbook.asks with
  | [], _ => none
  | _, [] => none
  | b :: _, a :: _ => some ((b.price + a.price) / 2)

/-- Price of the first level, used only under a non-emptiness guard
(`bids[0].price`). -/
def headPrice (levels : List OrderbookLevel) : ℚ :=
  match levels with
  | [] => 0
  | l :: _ => l.price

/-- `SpreadCalculator.isOrderbookHealthy`.  The JS guard `if (!midPrice)`
is falsy both for `null` and for a zero mid price, hence the extra
`midPrice = 0` case. -/
def isOrderbookHealthy (orderbook : Orderbook) : Bool :=
  if orderbook.bids.length < 2 ∨ orderbook.asks.length < 2 then false
  else
    match getMidPrice orderbook with
    | none => false
    | some midPrice =>
      if midPrice = 0 then false
      else
        let bestBid := headPrice orderbook.bids
        let bestAsk := headPrice orderbook.asks
        let currentSpread := (bestAsk - bestBid) / midPrice
        if currentSpread > 5 / 100 then false else true

/-! ## RiskManager (`src/core/risk.ts`) -/

/-- The value of a JS floating-point division when the inputs are finite:
finite quotient, `±Infinity`, or `NaN`. -/
inductive JsNum where
  | fin (q : ℚ)
  | inf
  | negInf
  | nan
deriving DecidableEq

/-- JS `a / b` on finite operands: finite for `b ≠ 0`, `±Infinity` for a
nonzero numerator over zero, `NaN` for `0 / 0`. -/
def jsDiv (a b : ℚ) : JsNum :=
  if b ≠ 0 then .fin (a / b)
  else if a > 0 then .inf
  else if a < 0 then .negInf
  else .nan

/-- JS `x > c` for finite `c`: `Infinity > c` is true, `NaN > c` and
`-Infinity > c` are false. -/
def JsNum.gtQ (x : JsNum) (c : ℚ) : Bool :=
  match x with
  | .fin q => q > c
  | .inf => true
  | .negInf => false
  | .nan => false

/-- `RiskCheckResult` (`details` omitted). -/
structure RiskCheckResult where
  canTrade : Bool
  reason : Option String
deriving DecidableEq

/-- Check 1 of `canQuote`; `marginFraction` is the awaited
`user.getLeverage()` result, passed in as a parameter. -/
def checkMarginFraction (cfg : BotConfig) (marginFraction : ℚ) : RiskCheckResult :=
  if marginFraction < cfg.risk.minMarginFraction then
    ⟨false, some "Margin fraction too low"⟩
  else ⟨true, none⟩

/-- Check 2 of `canQuote`: the USDC balance entry must exist and its
available amount must not be below `risk.minFreeCollateral`. -/
def checkFreeCollateral (cfg : BotConfig) (u : NordUser) : RiskCheckResult :=
  match u.usdcBalance with
  | none => ⟨false, some "No USDC balance found"⟩
  | some balance =>
    if balance.availableAmount < cfg.risk.minFreeCollateral then
      ⟨false, some "Insufficient free collateral"⟩
    else ⟨true, none⟩

/-- Check 3 of `canQuote`: `|position.size · entryPrice|` must not exceed
`freeCollateral · maxExposurePerMarket`; vacuously passes with no position. -/
def checkMarketExposure (cfg : BotConfig) (u : NordUser) (marketId : ℕ) : RiskCheckResult :=
  match getPosition u marketId with
  | none => ⟨true, none⟩
  | some position =>
    let maxPosition := freeCollateral u * cfg.risk.maxExposurePerMarket
    let currentExposure := |position.size * position.entryPrice|
    if currentExposure > maxPosition then
      ⟨false, some "Market exposure limit exceeded"⟩
    else ⟨true, none⟩

/-- `Σ |position.size · position.entryPrice|` over `Object.values(user.positions)`. -/
def totalExposure (u : NordUser) : ℚ :=
  u.positions.foldl (fun s p => s + |p.2.size * p.2.entryPrice|) 0

/-- The ratio `totalExposure / totalCollateral` computed by
`checkTotalExposure` — the source divides with no zero check on the
denominator, so the JS value can be `Infinity` or `NaN`. -/
def exposureRatio (u : NordUser) : JsNum :=
  jsDiv (totalExposure u) (totalCollateral u)

/-- Check 4 of `canQuote`: deny when `exposureRatio > maxTotalExposure`
(JS comparison, so `Infinity` denies and `NaN` allows). -/
def checkTotalExposure (cfg : BotConfig) (u : NordUser) : RiskCheckResult :=
  if (exposureRatio u).gtQ cfg.risk.maxTotalExposure then
    ⟨false, some "Total exposure limit exceeded"⟩
  else ⟨true, none⟩

/-- `RiskManager.canQuote`: the four ordered checks, first denial
short-circuits. -/
def canQuote (cfg : BotConfig) (u : NordUser) (marketId : ℕ) (marginFraction : ℚ) :
    RiskCheckResult :=
  let marginCheck := checkMarginFraction cfg marginFraction
  if !marginCheck.canTrade then marginCheck
  else
    let collateralCheck := checkFreeCollateral cfg u
    if !collateralCheck.canTrade then collateralCheck
    else
      let marketCheck := checkMarketExposure cfg u marketId
      if !marketCheck.canTrade then marketCheck
      else
        let totalCheck := checkTotalExposure cfg u
        if !totalCheck.canTrade then totalCheck
        else ⟨true, none⟩

/-- `RiskManager.getPositionRatio`: `0` with no (or zero-size) position and
with zero free collateral, else
`position.size · midPrice / (freeCollateral · maxExposurePerMarket)`. -/
def getPositionRatio (cfg : BotConfig) (u : NordUser) (marketId : ℕ) (midPrice : ℚ) : ℚ :=
  match getPosition u marketId with
  | none => 0
  | some position =>
    if position.size = 0 then 0
    else
      if freeCollateral u = 0 then 0
      else
        let positionValue := position.size * midPrice
        let maxPositionValue := freeCollateral u * cfg.risk.maxExposurePerMarket
        positionValue / maxPositionValue

/-! ## InventoryManager (`src/core/inventory.ts`) -/

/-- `CONFIG.assets[marketId]?.bias || CONFIG.defaultBias`.  JS `||` falls
through on every falsy value, so a configured bias of `0` also yields
`defaultBias`. -/
def biasFor (cfg : BotConfig) (marketId : ℕ) : ℚ :=
  match cfg.assets marketId with
  | some b => if b = 0 then cfg.defaultBias else b
  | none => cfg.defaultBias

/-- The record returned by `applyInventorySkew`. -/
structure SkewedPrice where
  bidPrice : ℚ
  askPrice : ℚ
  skewFactor : ℚ
  bias : ℚ
  positionRatio : ℚ
deriving DecidableEq

/-- `InventoryManager.applyInventorySkew` (the bias-aware version). -/
def applyInventorySkew (cfg : BotConfig) (u : NordUser) (marketId : ℕ)
    (basePrice spread : ℚ) : SkewedPrice :=
  let bias := biasFor cfg marketId
  if !cfg.inventorySkewEnabled then
    ⟨basePrice * (1 - spread / 2 + bias), basePrice * (1 + spread / 2 + bias), 0, bias, 0⟩
  else
    let positionRatio := getPositionRatio cfg u marketId basePrice
    let skewFactor :=
      if |positionRatio| > 5 / 100 then positionRatio * cfg.inventorySkewFactor else 0
    let totalAdjustment := skewFactor + bias
    let adjustedBasePrice := basePrice * (1 + totalAdjustment)
    ⟨adjustedBasePrice * (1 - spread / 2), adjustedBasePrice * (1 + spread / 2),
      skewFactor, bias, positionRatio⟩

/-! ## SizingCalculator (`src/core/sizing.ts`) -/

/-- `LevelSize`. -/
structure LevelSize where
  level : ℕ
  size : ℚ
deriving DecidableEq

/-- `SizingCalculator.calculateLevelSizes`: empty on zero free collateral,
else one entry per level according to the quantity mode.  Tiered mode reads
`tieredMultipliers[i] || 0`. -/
def calculateLevelSizes (cfg : BotConfig) (u : NordUser) : List LevelSize :=
  let free := freeCollateral u
  if free = 0 then []
  else
    match cfg.quantityMode with
    | .fixed => (List.range cfg.maxLevels).map (fun i => ⟨i, cfg.fixedSize⟩)
    | .percentage => (List.range cfg.maxLevels).map (fun i => ⟨i, free * cfg.percentPerLevel⟩)
    | .tiered =>
      let maxPosition := free * cfg.risk.maxExposurePerMarket
      (List.range cfg.maxLevels).map
        (fun i => ⟨i, maxPosition * ((cfg.tieredMultipliers.get? i).getD 0)⟩)

/-- `SizingCalculator.roundSize(size, minSize, stepSize = 0.01)`:
returns `minSize` when `size < minSize`, else `floor(size/stepSize)·stepSize`. -/
def roundSize (size minSize stepSize : ℚ) : ℚ :=
  if size < minSize then minSize
  else (⌊size / stepSize⌋ : ℚ) * stepSize

/-- `SizingCalculator.getTotalSize`. -/
def getTotalSize (levelSizes : List LevelSize) : ℚ :=
  levelSizes.foldl (fun s ls => s + ls.size) 0

/-- `SizingCalculator.validateSizes`: total notional must not exceed
`freeCollateral · maxExposurePerSide`. -/
def validateSizes (cfg : BotConfig) (levelSizes : List LevelSize)
    (free midPrice : ℚ) : Bool :=
  let totalValue := getTotalSize levelSizes * midPrice
  let maxAllowed := free * cfg.risk.maxExposurePerSide
  if totalValue > maxAllowed then false else true

/-! ## Quote engine (`src/live/marketMaker.ts`, class `MarketMakerLive`) -/

/-- The per-market static data the quote path reads. -/
structure Market where
  marketId : ℕ
  tickSize : ℚ
  minSize : ℚ
deriving DecidableEq

/-- Order side. -/
inductive Side where
  | bid
  | ask
deriving DecidableEq

/-- The per-market `lastQuotePrices` record. -/
structure LastQuotePrices where
  bid : ℚ
  ask : ℚ
  timestamp : ℤ
deriving DecidableEq

/-- A quote level `{price, size}`. -/
structure QuoteLevel where
  price : ℚ
  size : ℚ
deriving DecidableEq

/-- The outward-visible steps of a requote cycle, in order: the
`lastQuotePrices` map update, the cancel pass, and each placed order. -/
inductive Action where
  | setLastQuote (bid ask : ℚ) (timestamp : ℤ)
  | cancelOrders (marketId : ℕ)
  | placeOrder (marketId : ℕ) (side : Side) (price size : ℚ)
deriving DecidableEq

/-- Whether an action is an order placement. -/
def Action.isPlace : Action → Bool
  | .placeOrder _ _ _ _ => true
  | _ => false

/-- `MarketMakerLive.roundPrice`: `Math.round(price/tick)·tick`
(`Math.round x = ⌊x + 1/2⌋`, as is Lean's `round` on `ℚ`). -/
def roundPrice (price tickSize : ℚ) : ℚ :=
  (round (price / tickSize) : ℤ) * tickSize

/-- `MarketMakerLive.shouldRequote`: always requote with no prior record;
else requote iff either fractional price change exceeds the threshold. -/
def shouldRequote (cfg : BotConfig) (lastPrices : Option LastQuotePrices)
    (newBidPrice newAskPrice : ℚ) : Bool :=
  match lastPrices with
  | none => true
  | some lastPrices =>
    let bidChange := |newBidPrice - lastPrices.bid| / lastPrices.bid
    let askChange := |newAskPrice - lastPrices.ask| / lastPrices.ask
    decide (bidChange > cfg.requoteThreshold) || decide (askChange > cfg.requoteThreshold)

/-- `MarketMakerLive.generateQuoteLevels`: for each level `i` below
`min(maxLevels, |levelSizes|)`, spacing `spread·(i+1)·0.5` applied around
the base prices. -/
def generateQuoteLevels (cfg : BotConfig) (baseBidPrice baseAskPrice spread : ℚ)
    (levelSizes : List LevelSize) : List QuoteLevel × List QuoteLevel :=
  let n := Nat.min cfg.maxLevels levelSizes.length
  let bids := (List.range n).map (fun (i : ℕ) =>
    let spacing := spread * ((i : ℚ) + 1) * (1 / 2)
    (⟨baseBidPrice * (1 - spacing), ((levelSizes.get? i).map LevelSize.size).getD 0⟩ :
      QuoteLevel))
  let asks := (List.range n).map (fun (i : ℕ) =>
    let spacing := spread * ((i : ℚ) + 1) * (1 / 2)
    (⟨baseAskPrice * (1 + spacing), ((levelSizes.get? i).map LevelSize.size).getD 0⟩ :
      QuoteLevel))
  (bids, asks)

/-- `MarketMakerLive.placeQuotes`: one limit order per level, bids then
asks, price rounded to the tick and size through `roundSize` with the
default step `0.01`. -/
def placeQuotes (market : Market) (bids asks : List QuoteLevel) : List Action :=
  bids.map (fun b => Action.placeOrder market.marketId Side.bid
      (roundPrice b.price market.tickSize) (roundSize b.size market.minSize (1 / 100)))
    ++ asks.map (fun a => Action.placeOrder market.marketId Side.ask
      (roundPrice a.price market.tickSize) (roundSize a.size market.minSize (1 / 100)))

/-- `MarketMakerLive.requote`.  `midPrice` stands for the awaited
`getMidPrice` result (oracle or orderbook fallback); `now` for `Date.now()`.
Returns the new `lastQuotePrices` entry for this market together with the
ordered trace of outward-visible steps. -/
def requote (cfg : BotConfig) (market : Market) (u : NordUser)
    (lastPrices : Option LastQuotePrices) (now : ℤ) (midPrice : Option ℚ)
    (orderbook : Orderbook) : Option LastQuotePrices × List Action :=
  match midPrice with
  | none => (lastPrices, [])
  | some mid =>
    let sc := computeDynamicSpread cfg orderbook
    let sk := applyInventorySkew cfg u market.marketId mid sc.spread
    if !(shouldRequote cfg lastPrices sk.bidPrice sk.askPrice) then (lastPrices, [])
    else
      let newLast := some (⟨sk.bidPrice, sk.askPrice, now⟩ : LastQuotePrices)
      let pre := [Action.setLastQuote sk.bidPrice sk.askPrice now,
        Action.cancelOrders market.marketId]
      let levelSizes := calculateLevelSizes cfg u
      if levelSizes.isEmpty then (newLast, pre)
      else if !(validateSizes cfg levelSizes (freeCollateral u) mid) then (newLast, pre)
      else
        let q := generateQuoteLevels cfg sk.bidPrice sk.askPrice sc.spread levelSizes
        (newLast, pre ++ placeQuotes market q.1 q.2)

/-! ## PriceOracle (`src/core/priceOracle.ts`) -/

/-- `ExchangePrice`. -/
structure ExchangePrice where
  bid : ℚ
  ask : ℚ
  mid : ℚ
  spread : ℚ
  volume24h : ℚ
  timestamp : ℤ
  source : String
deriving DecidableEq

/-- The slice of `OracleConfig` that `getPrice` reads. -/
structure OracleConfig where
  cacheTimeout : ℤ
deriving DecidableEq

/-- Ascending sort, as JS `array.sort((a, b) => a - b)`. -/
def sortAsc (l : List ℚ) : List ℚ :=
  l.mergeSort

/-- `PriceOracle.aggregatePrices`: per-field lower median over the
ascending-sorted bids, asks and mids, mean volume, compound source tag. -/
def aggregatePrices (now : ℤ) (prices : List ExchangePrice) : ExchangePrice :=
  let mids := sortAsc (prices.map (·.mid))
  let bids := sortAsc (prices.map (·.bid))
  let asks := sortAsc (prices.map (·.ask))
  let medianIndex := prices.length / 2
  let bid := bids.getD medianIndex 0
  let ask := asks.getD medianIndex 0
  let mid := mids.getD medianIndex 0
  let totalVolume := prices.foldl (fun s p => s + p.volume24h) 0
  let avgVolume := totalVolume / (prices.length : ℚ)
  ⟨bid, ask, mid, (ask - bid) / mid, avgVolume, now,
    "aggregated(" ++ String.intercalate "," (prices.map (·.source)) ++ ")"⟩

/-- Whether the cached entry is fresh: `now − entry.timestamp < cacheTimeout`. -/
def cacheFresh (cfg : OracleConfig) (cached : Option ExchangePrice) (now : ℤ) : Bool :=
  match cached with
  | some c => now - c.timestamp < cfg.cacheTimeout
  | none => false

/-- What one `getPrice` call returns and leaves behind for the queried
symbol: the returned value, the cache entry afterwards, and whether the
sources were queried at all. -/
structure GetPriceResult where
  result : Option ExchangePrice
  cache : Option ExchangePrice
  queriedSources : Bool
deriving DecidableEq

/-- `PriceOracle.getPrice` for one symbol.  `cached` is the current cache
entry, `fetchResults` the settled per-source fetch results (a failed or
timed-out source yields `none`).  Mirrors the source: fresh cache hit
returns early; otherwise the successes are collected, an empty collection
returns the (stale) cache entry `|| null` without touching the cache, and
a non-empty one is aggregated and cached. -/
def getPrice (cfg : OracleConfig) (cached : Option ExchangePrice) (now : ℤ)
    (fetchResults : List (Option ExchangePrice)) : GetPriceResult :=
  if cacheFresh cfg cached now then ⟨cached, cached, false⟩
  else
    let prices := fetchResults.filterMap id
    if prices.isEmpty then ⟨cached, cached, true⟩
    else
      let aggregatedPrice := aggregatePrices now prices
      ⟨some aggregatedPrice, some aggregatedPrice, true⟩

/-! ## BacktestEngine (`src/backtest/engine.ts`) -/

/-- `BacktestOrder`. -/
structure BacktestOrder where
  id : String
  side : Side
  price : ℚ
  size : ℚ
  timestamp : ℤ
  filled : Bool
  fillPrice : Option ℚ
  fillTimestamp : Option ℤ
deriving DecidableEq

/-- `BacktestPosition`. -/
structure BacktestPosition where
  size : ℚ
  entryPrice : ℚ
  realizedPnl : ℚ
  unrealizedPnl : ℚ
deriving DecidableEq

/-- The engine state that `fillOrder` touches. -/
structure BacktestState where
  position : BacktestPosition
  balance : ℚ
deriving DecidableEq

/-- `Math.sign`. -/
def jsSign (q : ℚ) : ℤ :=
  if q > 0 then 1 else if q < 0 then -1 else 0

/-- `BacktestEngine.fillOrder`: marks the order filled at its own price,
realizes PnL on the reducing/closing part, and updates the position by the
flat / flip / increase / reduce rule.  Returns the new state and the filled
order. -/
def fillOrder (st : BacktestState) (order : BacktestOrder) (barTimestamp : ℤ) :
    BacktestState × BacktestOrder :=
  let filledOrder := { order with
    filled := true
    fillPrice := some order.price
    fillTimestamp := some barTimestamp }
  let sizeChange := if order.side = Side.bid then order.size else -order.size
  let oldSize := st.position.size
  let newSize := oldSize + sizeChange
  let realized :=
    if (oldSize > 0 ∧ sizeChange < 0) ∨ (oldSize < 0 ∧ sizeChange > 0) then
      let closedSize := min |oldSize| |sizeChange|
      if oldSize > 0 then closedSize * (order.price - st.position.entryPrice)
      else closedSize * (st.position.entryPrice - order.price)
    else 0
  let position₁ := { st.position with realizedPnl := st.position.realizedPnl + realized }
  let balance₁ := st.balance + realized
  let position₂ :=
    if newSize = 0 then { position₁ with size := 0, entryPrice := 0 }
    else if jsSign newSize ≠ jsSign oldSize then
      { position₁ with size := newSize, entryPrice := order.price }
    else if |newSize| > |oldSize| then
      let weightedPrice := (oldSize * position₁.entryPrice + sizeChange * order.price) / newSize
      { position₁ with size := newSize, entryPrice := weightedPrice }
    else { position₁ with size := newSize }
  (⟨position₂, balance₁⟩, filledOrder)

/-! ## Fixtures: concrete values used to instantiate theorems -/

/-- The shipped `CONFIG` of `config.ts` (tiered sizing, spread 0.15%–1.25%
over 5 depth levels, the stock risk limits, 3 levels, skew factor 0.002,
requote threshold 2 bps, no per-market bias entries). -/
def sampleConfig : BotConfig where
  quantityMode := QuantityMode.tiered
  fixedSize := 1 / 10
  percentPerLevel := 1 / 100
  tieredMultipliers := [1 / 2, 3 / 10, 1 / 5]
  spread := ⟨3 / 2000, 1 / 80, 5⟩
  risk := ⟨9 / 50, 1 / 4, 3 / 10, 3 / 5, 100⟩
  maxLevels := 3
  autoHedge := ⟨false, 7 / 20⟩
  inventorySkewEnabled := true
  inventorySkewFactor := 1 / 500
  requoteThreshold := 1 / 5000
  assets := fun _ => none
  defaultBias := 0

/-- A configuration whose `assets` record has market 1 with a configured
bias of `0` and market 2 with bias `1/1000`, and a nonzero `defaultBias`. -/
def biasTestConfig : BotConfig :=
  { sampleConfig with
    inventorySkewEnabled := false
    assets := fun m => if m = 1 then some 0 else if m = 2 then some (1 / 1000) else none
    defaultBias := 1 / 200 }

/-- A configuration with degenerate spread bounds `[0, 0]`, skew disabled
and zero bias and threshold, so the pipeline quotes exactly the mid. -/
def flatConfig : BotConfig :=
  { sampleConfig with
    spread := ⟨0, 0, 5⟩
    inventorySkewEnabled := false
    requoteThreshold := 0 }

/-- A configuration with wide whole-number spread bounds `[1, 3]` over two
depth levels, for instantiating the spread theorems. -/
def spreadTestConfig : BotConfig :=
  { sampleConfig with spread := ⟨1, 3, 2⟩ }

/-- A concrete imbalanced two-level book: top-two bid size 4 against
top-two ask size 2. -/
def bookA : Orderbook :=
  ⟨1, [⟨10, 3⟩, ⟨9, 1⟩], [⟨11, 1⟩, ⟨12, 1⟩]⟩

/-- Three concrete source prices (whole-number fields) whose per-field
medians come from three different sources. -/
def oracleSamples : List ExchangePrice :=
  [⟨3, 6, 4, 0, 30, 0, "binance"⟩, ⟨1, 4, 6, 0, 60, 0, "bybit"⟩,
    ⟨2, 5, 5, 0, 90, 0, "coinbase"⟩]

/-- The skewed quote prices exactly as `requote` computes them before the
threshold gate: `applyInventorySkew` at the dynamic spread of the book. -/
def requotePrices (cfg : BotConfig) (u : NordUser) (market : Market) (mid : ℚ)
    (orderbook : Orderbook) : SkewedPrice :=
  applyInventorySkew cfg u market.marketId mid (computeDynamicSpread cfg orderbook).spread

/-! ## Helper lemmas -/

/-- `sumDepth` is the sum of the sizes. -/
theorem sumDepth_eq_sum (levels : List OrderbookLevel) :
    sumDepth levels = (levels.map OrderbookLevel.size).sum := by
  have h : ∀ (l : List OrderbookLevel) (s : ℚ),
      l.foldl (fun s l => s + l.size) s = s + (l.map OrderbookLevel.size).sum := by
    intro l
    induction l with
    | nil => simp
    | cons a t ih =>
      intro s
      simp only [List.foldl_cons, List.map_cons, List.sum_cons, ih]
      ring
  simpa [sumDepth] using h levels 0

/-- The volume accumulator of `aggregatePrices` is the sum of the volumes. -/
theorem foldl_volume_eq_sum (prices : List ExchangePrice) :
    prices.foldl (fun s p => s + p.volume24h) 0 =
      (prices.map (·.volume24h)).sum := by
  have h : ∀ (l : List ExchangePrice) (s : ℚ),
      l.foldl (fun s p => s + p.volume24h) s = s + (l.map (·.volume24h)).sum := by
    intro l
    induction l with
    | nil => simp
    | cons a t ih =>
      intro s
      simp only [List.foldl_cons, List.map_cons, List.sum_cons, ih]
      ring
  simpa using h prices 0

/-- `totalExposure` is a sum of absolute values, hence nonnegative. -/
theorem totalExposure_nonneg (u : NordUser) : 0 ≤ totalExposure u := by
  have h : ∀ (l : List (ℕ × Position)) (s : ℚ), 0 ≤ s →
      0 ≤ l.foldl (fun s p => s + |p.2.size * p.2.entryPrice|) s := by
    intro l
    induction l with
    | nil => intro s hs; simpa using hs
    | cons a t ih =>
      intro s hs
      exact ih _ (add_nonneg hs (abs_nonneg _))
  exact h u.positions 0 le_rfl

/-- `sortAsc` yields an ascending-sorted list. -/
theorem sortAsc_sorted (l : List ℚ) : (sortAsc l).Sorted (· ≤ ·) :=
  List.sorted_mergeSort' l

/-- `sortAsc` is a permutation of its input. -/
theorem sortAsc_perm (l : List ℚ) : List.Perm (sortAsc l) l :=
  List.mergeSort_perm l _

/-- The `bias` field of `applyInventorySkew` is `biasFor` in both the
skew-enabled and skew-disabled branches. -/
theorem applyInventorySkew_bias (cfg : BotConfig) (u : NordUser) (marketId : ℕ)
    (basePrice spread : ℚ) :
    (applyInventorySkew cfg u marketId basePrice spread).bias = biasFor cfg marketId := by
  unfold applyInventorySkew
  cases cfg.inventorySkewEnabled <;> simp

/-! ## Claim theorems -/

/-- C10: `roundSize` does not guarantee a result ≥ `minSize`.  With
`size = 0.007 ≥ minSize = 0.005` and `minSize < stepSize = 0.01` (the
default step used by `placeQuotes`), the rounded size is
`⌊0.007/0.01⌋·0.01 = 0 < minSize`, and `placeQuotes` emits that zero-size
order at the venue interface. -/
theorem roundSize_can_emit_zero :
    roundSize (7 / 1000) (5 / 1000) (1 / 100) = 0 ∧
    (5 / 1000 : ℚ) ≤ 7 / 1000 ∧
    (5 / 1000 : ℚ) < 1 / 100 ∧
    roundSize (7 / 1000) (5 / 1000) (1 / 100) < 5 / 1000 ∧
    Action.placeOrder 1 Side.bid 100 0 ∈
      placeQuotes ⟨1, 1, 5 / 1000⟩ [⟨100, 7 / 1000⟩] [] := by
  have h : roundSize (7 / 1000) (5 / 1000) (1 / 100) = 0 := by
    rw [roundSize, if_neg (by norm_num)]
    norm_num
  refine ⟨h, by norm_num, by norm_num, by rw [h]; norm_num, ?_⟩
  have hp : roundPrice 100 1 = 100 := by
    rw [roundPrice, round_eq]
    norm_num
  have h2 : roundSize (7 / 1000) (5 / 1000) (100 : ℚ)⁻¹ = 0 := by
    rw [show ((100 : ℚ))⁻¹ = 1 / 100 by norm_num]
    exact h
  simp [placeQuotes, hp, h, h2]

/-- C3 counterexample: with zero total collateral and one open position,
the total-exposure ratio computed by `checkTotalExposure` is `Infinity`,
not zero — that division has no zero guard. -/
theorem checkTotalExposure_unguarded :
    totalCollateral ⟨some ⟨0, 0⟩, [(1, ⟨1, 2⟩)]⟩ = 0 ∧
    exposureRatio ⟨some ⟨0, 0⟩, [(1, ⟨1, 2⟩)]⟩ = JsNum.inf := by
  refine ⟨rfl, ?_⟩
  have he : totalExposure ⟨some ⟨0, 0⟩, [(1, ⟨1, 2⟩)]⟩ = 2 := by
    simp [totalExposure]
  have hc : totalCollateral ⟨some ⟨0, 0⟩, [(1, ⟨1, 2⟩)]⟩ = (0 : ℚ) := rfl
  rw [exposureRatio, he, hc, jsDiv]
  norm_num

/-- C3 (amended): `getPositionRatio` is guarded — it returns `0` with no
position and with zero available collateral — but `checkTotalExposure`
divides with no guard on its denominator: the total-exposure ratio is
finite only for nonzero total collateral, is `Infinity` (so the check
denies) for zero collateral against nonzero exposure, and is `NaN` (so the
check allows) for zero against zero. -/
theorem risk_division_guards (cfg : BotConfig) (u : NordUser) (marketId : ℕ)
    (midPrice : ℚ) :
    (freeCollateral u = 0 → getPositionRatio cfg u marketId midPrice = 0) ∧
    (getPosition u marketId = none → getPositionRatio cfg u marketId midPrice = 0) ∧
    (totalCollateral u ≠ 0 →
      exposureRatio u = JsNum.fin (totalExposure u / totalCollateral u)) ∧
    (totalCollateral u = 0 → totalExposure u ≠ 0 →
      exposureRatio u = JsNum.inf ∧ (checkTotalExposure cfg u).canTrade = false) ∧
    (totalCollateral u = 0 → totalExposure u = 0 →
      exposureRatio u = JsNum.nan ∧ (checkTotalExposure cfg u).canTrade = true) := by
  refine ⟨?_, ?_, ?_, ?_, ?_⟩
  · intro h
    cases hp : getPosition u marketId with
    | none => simp [getPositionRatio, hp]
    | some p => by_cases hs : p.size = 0 <;> simp [getPositionRatio, hp, hs, h]
  · intro h
    simp [getPositionRatio, h]
  · intro h
    simp [exposureRatio, jsDiv, h]
  · intro h0 hne
    have hpos : 0 < totalExposure u :=
      lt_of_le_of_ne (totalExposure_nonneg u) (Ne.symm hne)
    constructor
    · simp [exposureRatio, jsDiv, h0, hpos]
    · simp [checkTotalExposure, exposureRatio, jsDiv, h0, hpos, JsNum.gtQ]
  · intro h0 he
    constructor
    · simp [exposureRatio, jsDiv, h0, he]
    · simp [checkTotalExposure, exposureRatio, jsDiv, h0, he, JsNum.gtQ]

/-- Witness for `risk_division_guards`: zero total collateral against a
position of notional 3 yields an infinite ratio and a denial. -/
theorem risk_division_guards_witness :
    exposureRatio ⟨some ⟨0, 0⟩, [(2, ⟨1, 3⟩)]⟩ = JsNum.inf ∧
    (checkTotalExposure sampleConfig ⟨some ⟨0, 0⟩, [(2, ⟨1, 3⟩)]⟩).canTrade = false :=
  (risk_division_guards sampleConfig ⟨some ⟨0, 0⟩, [(2, ⟨1, 3⟩)]⟩ 1 100).2.2.2.1 rfl
    (by simp [totalExposure])

/-- C5 counterexample: market 1 has an `assets` entry whose configured bias
is `0`, yet the bias used by `applyInventorySkew` is the nonzero
`defaultBias` — the JS `||` fallback also fires on a configured `0`. -/
theorem bias_zero_entry_falls_back :
    biasTestConfig.assets 1 = some 0 ∧
    biasTestConfig.defaultBias = 1 / 200 ∧
    (applyInventorySkew biasTestConfig ⟨none, []⟩ 1 100 0).bias = 1 / 200 ∧
    (1 / 200 : ℚ) ≠ 0 := by
  refine ⟨by simp [biasTestConfig], rfl, ?_, by norm_num⟩
  rw [applyInventorySkew_bias]
  simp [biasFor, biasTestConfig]

/-- C5 (amended): the bias used by `applyInventorySkew` is
`assets[market].bias` when the market has an entry with a nonzero bias, and
`defaultBias` both when the market is absent from `assets` and when its
configured bias is `0`. -/
theorem bias_selection (cfg : BotConfig) (u : NordUser) (marketId : ℕ)
    (basePrice spread b : ℚ) :
    (cfg.assets marketId = some b → b ≠ 0 →
      (applyInventorySkew cfg u marketId basePrice spread).bias = b) ∧
    (cfg.assets marketId = some 0 →
      (applyInventorySkew cfg u marketId basePrice spread).bias = cfg.defaultBias) ∧
    (cfg.assets marketId = none →
      (applyInventorySkew cfg u marketId basePrice spread).bias = cfg.defaultBias) := by
  refine ⟨?_, ?_, ?_⟩ <;> intro h
  · intro hb
    rw [applyInventorySkew_bias]
    simp [biasFor, h, hb]
  · rw [applyInventorySkew_bias]
    simp [biasFor, h]
  · rw [applyInventorySkew_bias]
    simp [biasFor, h]

/-- Witness for `bias_selection`: market 2 carries a nonzero configured
bias `1/1000`, and that bias is the one used. -/
theorem bias_selection_witness :
    (applyInventorySkew biasTestConfig ⟨none, []⟩ 2 100 0).bias = 1 / 1000 :=
  (bias_selection biasTestConfig ⟨none, []⟩ 2 100 0 (1 / 1000)).1
    (by simp [biasTestConfig]) (by norm_num)

/-- C4 counterexample: a crossed book (best bid 101 ≥ best ask 100) passes
`isOrderbookHealthy` — the health check never compares best bid with best
ask, it only bounds `(bestAsk − bestBid)/mid` from above. -/
theorem isOrderbookHealthy_crossed_book :
    isOrderbookHealthy ⟨1, [⟨101, 1⟩, ⟨100, 1⟩], [⟨100, 1⟩, ⟨101, 1⟩]⟩ = true ∧
    ¬(headPrice [⟨101, 1⟩, ⟨100, 1⟩] < headPrice [⟨100, 1⟩, ⟨101, 1⟩]) := by
  constructor
  · rw [isOrderbookHealthy]
    norm_num [getMidPrice, headPrice]
  · rw [headPrice, headPrice]
    norm_num

/-- C4 (amended): a book that `isOrderbookHealthy` accepts has at least two
levels on each side, a defined nonzero mid, and a top-of-book spread of at
most 5% of the mid; the check does not itself establish
`best_bid < best_ask` (that is the orderbook invariant of the venue). -/
theorem isOrderbookHealthy_ok (book : Orderbook)
    (h : isOrderbookHealthy book = true) :
    2 ≤ book.bids.length ∧ 2 ≤ book.asks.length ∧
    ∃ m, getMidPrice book = some m ∧ m ≠ 0 ∧
      (headPrice book.asks - headPrice book.bids) / m ≤ 5 / 100 := by
  simp only [isOrderbookHealthy] at h
  split at h
  · exact absurd h (by simp)
  · next hlen =>
    push_neg at hlen
    split at h
    · exact absurd h (by simp)
    · next m hm =>
      split at h
      · exact absurd h (by simp)
      · next hz =>
        split at h
        · exact absurd h (by simp)
        · next hsp =>
          exact ⟨by omega, by omega, m, hm, hz, not_lt.1 hsp⟩

/-- Witness for `isOrderbookHealthy_ok` at a healthy two-level book. -/
theorem isOrderbookHealthy_ok_witness :
    2 ≤ ([⟨100, 1⟩, ⟨99, 1⟩] : List OrderbookLevel).length ∧
    2 ≤ ([⟨101, 1⟩, ⟨102, 1⟩] : List OrderbookLevel).length ∧
    ∃ m, getMidPrice ⟨7, [⟨100, 1⟩, ⟨99, 1⟩], [⟨101, 1⟩, ⟨102, 1⟩]⟩ = some m ∧ m ≠ 0 ∧
      (headPrice [⟨101, 1⟩, ⟨102, 1⟩] - headPrice [⟨100, 1⟩, ⟨99, 1⟩]) / m ≤ 5 / 100 :=
  isOrderbookHealthy_ok ⟨7, [⟨100, 1⟩, ⟨99, 1⟩], [⟨101, 1⟩, ⟨102, 1⟩]⟩
    (by rw [isOrderbookHealthy]; norm_num [getMidPrice, headPrice])

/-- C7: `getPrice` returns a fresh cache entry as-is, without querying any
source and without touching the cache; and when every configured source
fails it returns the stale cache entry when one exists (`none` otherwise),
again leaving the cache unchanged. -/
theorem getPrice_cache_ok (cfg : OracleConfig) (c : ExchangePrice)
    (cached : Option ExchangePrice) (now : ℤ)
    (fetchResults : List (Option ExchangePrice)) :
    (now - c.timestamp < cfg.cacheTimeout →
      getPrice cfg (some c) now fetchResults = ⟨some c, some c, false⟩) ∧
    (cacheFresh cfg cached now = false → (∀ r ∈ fetchResults, r = none) →
      getPrice cfg cached now fetchResults = ⟨cached, cached, true⟩) := by
  constructor
  · intro h
    simp [getPrice, cacheFresh, h]
  · intro hf hall
    have hnil : fetchResults.filterMap id = [] := by
      rw [List.filterMap_eq_nil_iff]
      exact fun a ha => hall a ha
    simp [getPrice, hf, hnil]

/-- Witness for `getPrice_cache_ok`: a 5-second-old entry against a
10-second timeout is returned unchanged with no source queried. -/
theorem getPrice_cache_ok_witness :
    getPrice ⟨10000⟩ (some ⟨100, 101, 201 / 2, 0, 0, 0, "binance"⟩) 5000 [] =
      ⟨some ⟨100, 101, 201 / 2, 0, 0, 0, "binance"⟩,
        some ⟨100, 101, 201 / 2, 0, 0, 0, "binance"⟩, false⟩ :=
  (getPrice_cache_ok ⟨10000⟩ ⟨100, 101, 201 / 2, 0, 0, 0, "binance"⟩ none 5000 []).1
    (by norm_num)

/-- C1: the requote gate.  With an existing `lastQuotePrices` record whose
prices are positive, the cycle places no order (and changes nothing) when
both fractional price changes are at most `requoteThreshold`; whenever the
gate passes, the `lastQuotePrices` update is the first step of the trace,
before any cancel or placement; and with no prior record the gate always
passes. -/
theorem requote_gate_ok (cfg : BotConfig) (market : Market) (u : NordUser)
    (prev : LastQuotePrices) (lastPrices : Option LastQuotePrices) (now : ℤ)
    (mid : ℚ) (book : Orderbook)
    (hbid : 0 < prev.bid) (hask : 0 < prev.ask) :
    (|(requotePrices cfg u market mid book).bidPrice - prev.bid| / prev.bid ≤
        cfg.requoteThreshold →
      |(requotePrices cfg u market mid book).askPrice - prev.ask| / prev.ask ≤
        cfg.requoteThreshold →
      requote cfg market u (some prev) now (some mid) book = (some prev, [])) ∧
    (shouldRequote cfg lastPrices (requotePrices cfg u market mid book).bidPrice
        (requotePrices cfg u market mid book).askPrice = true →
      (requote cfg market u lastPrices now (some mid) book).1 =
        some ⟨(requotePrices cfg u market mid book).bidPrice,
          (requotePrices cfg u market mid book).askPrice, now⟩ ∧
      (requote cfg market u lastPrices now (some mid) book).2.head? =
        some (Action.setLastQuote (requotePrices cfg u market mid book).bidPrice
          (requotePrices cfg u market mid book).askPrice now)) ∧
    shouldRequote cfg none (requotePrices cfg u market mid book).bidPrice
      (requotePrices cfg u market mid book).askPrice = true := by
  refine ⟨?_, ?_, rfl⟩
  · intro h1 h2
    have hsr : shouldRequote cfg (some prev)
        (requotePrices cfg u market mid book).bidPrice
        (requotePrices cfg u market mid book).askPrice = false := by
      simp only [shouldRequote, Bool.or_eq_false_iff, decide_eq_false_iff_not, not_lt]
      exact ⟨h1, h2⟩
    simp only [requotePrices] at hsr
    simp only [requote, hsr, Bool.not_false, if_true]
  · intro hsq
    simp only [requotePrices] at hsq
    simp only [requote, hsq, Bool.not_true, Bool.false_eq_true, if_false]
    constructor
    · split
      · rfl
      · split <;> rfl
    · split
      · rfl
      · split <;> rfl

/-- Witness for `requote_gate_ok`: with the flat configuration quoting
exactly the mid, a prior record at the same prices suppresses the cycle. -/
theorem requote_gate_ok_witness :
    requote flatConfig ⟨1, 1, 1⟩ ⟨some ⟨1000, 1000⟩, []⟩
      (some ⟨100, 100, 0⟩) 0 (some 100) ⟨1, [⟨99, 2⟩], [⟨101, 2⟩]⟩ =
      (some ⟨100, 100, 0⟩, []) := by
  have e : requotePrices flatConfig ⟨some ⟨1000, 1000⟩, []⟩ ⟨1, 1, 1⟩ 100
      ⟨1, [⟨99, 2⟩], [⟨101, 2⟩]⟩ = ⟨100, 100, 0, 0, 0⟩ := by
    norm_num [requotePrices, applyInventorySkew, computeDynamicSpread, sumDepth,
      clamp, biasFor, flatConfig, sampleConfig]
  exact (requote_gate_ok flatConfig ⟨1, 1, 1⟩ ⟨some ⟨1000, 1000⟩, []⟩ ⟨100, 100, 0⟩
      none 0 100 ⟨1, [⟨99, 2⟩], [⟨101, 2⟩]⟩ (by norm_num) (by norm_num)).1
    (by rw [e]; norm_num [flatConfig, sampleConfig])
    (by rw [e]; norm_num [flatConfig, sampleConfig])

/-- C2: `computeDynamicSpread` reports the top-`d` depth sums with
`d = min(depthLevels, |bids|, |asks|)`, the imbalance `(B−A)/(B+A)` with
`0` on empty depth, the spread clamped into `[spread.min, spread.max]`,
and the spread is monotonically non-decreasing in `|imbalance|`. -/
theorem computeDynamicSpread_ok (cfg : BotConfig) (book book₂ : Orderbook)
    (hmin : cfg.spread.min ≤ cfg.spread.max)
    (hb : ∀ l ∈ book.bids, 0 ≤ l.size) (ha : ∀ l ∈ book.asks, 0 ≤ l.size) :
    (computeDynamicSpread cfg book).bidDepth =
      ((book.bids.take (Nat.min cfg.spread.depthLevels
        (Nat.min book.bids.length book.asks.length))).map OrderbookLevel.size).sum ∧
    (computeDynamicSpread cfg book).askDepth =
      ((book.asks.take (Nat.min cfg.spread.depthLevels
        (Nat.min book.bids.length book.asks.length))).map OrderbookLevel.size).sum ∧
    ((computeDynamicSpread cfg book).bidDepth + (computeDynamicSpread cfg book).askDepth = 0 →
      (computeDynamicSpread cfg book).imbalance = 0) ∧
    ((computeDynamicSpread cfg book).bidDepth + (computeDynamicSpread cfg book).askDepth ≠ 0 →
      (computeDynamicSpread cfg book).imbalance =
        ((computeDynamicSpread cfg book).bidDepth - (computeDynamicSpread cfg book).askDepth) /
          ((computeDynamicSpread cfg book).bidDepth + (computeDynamicSpread cfg book).askDepth)) ∧
    (computeDynamicSpread cfg book).spread =
      clamp (cfg.spread.min + |(computeDynamicSpread cfg book).imbalance| *
        (cfg.spread.max - cfg.spread.min)) cfg.spread.min cfg.spread.max ∧
    cfg.spread.min ≤ (computeDynamicSpread cfg book).spread ∧
    (computeDynamicSpread cfg book).spread ≤ cfg.spread.max ∧
    (|(computeDynamicSpread cfg book).imbalance| ≤ |(computeDynamicSpread cfg book₂).imbalance| →
      (computeDynamicSpread cfg book).spread ≤ (computeDynamicSpread cfg book₂).spread) := by
  have hBs : 0 ≤ sumDepth (book.bids.take (Nat.min cfg.spread.depthLevels
      (Nat.min book.bids.length book.asks.length))) := by
    rw [sumDepth_eq_sum]
    apply List.sum_nonneg
    intro x hx
    obtain ⟨l, hl, rfl⟩ := List.mem_map.1 hx
    exact hb l (List.mem_of_mem_take hl)
  have hAs : 0 ≤ sumDepth (book.asks.take (Nat.min cfg.spread.depthLevels
      (Nat.min book.bids.length book.asks.length))) := by
    rw [sumDepth_eq_sum]
    apply List.sum_nonneg
    intro x hx
    obtain ⟨l, hl, rfl⟩ := List.mem_map.1 hx
    exact ha l (List.mem_of_mem_take hl)
  refine ⟨sumDepth_eq_sum _, sumDepth_eq_sum _, ?_, ?_, rfl, ?_, ?_, ?_⟩
  · intro h0
    simp only [computeDynamicSpread] at h0 ⊢
    simp [h0]
  · intro hne
    simp only [computeDynamicSpread] at hne ⊢
    rw [if_pos (lt_of_le_of_ne (add_nonneg hBs hAs) (Ne.symm hne))]
  · exact le_max_left _ _
  · exact max_le hmin (min_le_left _ _)
  · intro hle
    exact max_le_max le_rfl (min_le_min le_rfl
      (add_le_add_left (mul_le_mul_of_nonneg_right hle (sub_nonneg.2 hmin)) _))

/-- Witness for `computeDynamicSpread_ok` at the imbalanced book `bookA`
under whole-number spread bounds. -/
theorem computeDynamicSpread_ok_witness :
    (computeDynamicSpread spreadTestConfig bookA).bidDepth =
      ((bookA.bids.take (Nat.min spreadTestConfig.spread.depthLevels
        (Nat.min bookA.bids.length bookA.asks.length))).map OrderbookLevel.size).sum ∧
    (computeDynamicSpread spreadTestConfig bookA).askDepth =
      ((bookA.asks.take (Nat.min spreadTestConfig.spread.depthLevels
        (Nat.min bookA.bids.length bookA.asks.length))).map OrderbookLevel.size).sum ∧
    ((computeDynamicSpread spreadTestConfig bookA).bidDepth +
        (computeDynamicSpread spreadTestConfig bookA).askDepth = 0 →
      (computeDynamicSpread spreadTestConfig bookA).imbalance = 0) ∧
    ((computeDynamicSpread spreadTestConfig bookA).bidDepth +
        (computeDynamicSpread spreadTestConfig bookA).askDepth ≠ 0 →
      (computeDynamicSpread spreadTestConfig bookA).imbalance =
        ((computeDynamicSpread spreadTestConfig bookA).bidDepth -
            (computeDynamicSpread spreadTestConfig bookA).askDepth) /
          ((computeDynamicSpread spreadTestConfig bookA).bidDepth +
            (computeDynamicSpread spreadTestConfig bookA).askDepth)) ∧
    (computeDynamicSpread spreadTestConfig bookA).spread =
      clamp (spreadTestConfig.spread.min +
        |(computeDynamicSpread spreadTestConfig bookA).imbalance| *
        (spreadTestConfig.spread.max - spreadTestConfig.spread.min))
        spreadTestConfig.spread.min spreadTestConfig.spread.max ∧
    spreadTestConfig.spread.min ≤ (computeDynamicSpread spreadTestConfig bookA).spread ∧
    (computeDynamicSpread spreadTestConfig bookA).spread ≤ spreadTestConfig.spread.max ∧
    (|(computeDynamicSpread spreadTestConfig bookA).imbalance| ≤
        |(computeDynamicSpread spreadTestConfig bookA).imbalance| →
      (computeDynamicSpread spreadTestConfig bookA).spread ≤
        (computeDynamicSpread spreadTestConfig bookA).spread) :=
  computeDynamicSpread_ok spreadTestConfig bookA bookA
    (by norm_num [spreadTestConfig, sampleConfig])
    (by intro l hl; fin_cases hl <;> norm_num [bookA])
    (by intro l hl; fin_cases hl <;> norm_num [bookA])

/-- C8: a filled bid at `pb` from a flat book immediately followed by a
filled ask of the same size `s` at a strictly higher `pa` realizes exactly
`s·(pa − pb) > 0`, credited to both `realizedPnl` and the balance, and
leaves the position flat; the fill prices recorded are the order prices. -/
theorem backtest_round_trip_ok (st0 : BacktestState) (s pb pa : ℚ) (t1 t2 : ℤ)
    (hflat : st0.position.size = 0) (hs : 0 < s) (hab : pb < pa) :
    (fillOrder st0 ⟨"b", Side.bid, pb, s, t1, false, none, none⟩ t1).2.fillPrice = some pb ∧
    (fillOrder (fillOrder st0 ⟨"b", Side.bid, pb, s, t1, false, none, none⟩ t1).1
        ⟨"a", Side.ask, pa, s, t2, false, none, none⟩ t2).2.fillPrice = some pa ∧
    (fillOrder (fillOrder st0 ⟨"b", Side.bid, pb, s, t1, false, none, none⟩ t1).1
        ⟨"a", Side.ask, pa, s, t2, false, none, none⟩ t2).1.balance =
      st0.balance + s * (pa - pb) ∧
    (fillOrder (fillOrder st0 ⟨"b", Side.bid, pb, s, t1, false, none, none⟩ t1).1
        ⟨"a", Side.ask, pa, s, t2, false, none, none⟩ t2).1.position.realizedPnl =
      st0.position.realizedPnl + s * (pa - pb) ∧
    0 < s * (pa - pb) ∧
    (fillOrder (fillOrder st0 ⟨"b", Side.bid, pb, s, t1, false, none, none⟩ t1).1
        ⟨"a", Side.ask, pa, s, t2, false, none, none⟩ t2).1.position.size = 0 := by
  have hsz : s ≠ 0 := ne_of_gt hs
  have e1 : (fillOrder st0 ⟨"b", Side.bid, pb, s, t1, false, none, none⟩ t1).1 =
      ⟨⟨s, pb, st0.position.realizedPnl, st0.position.unrealizedPnl⟩, st0.balance⟩ := by
    simp [fillOrder, hflat, hsz, hs, jsSign, not_lt.2 hs.le]
  have e2 : (fillOrder
      (⟨⟨s, pb, st0.position.realizedPnl, st0.position.unrealizedPnl⟩, st0.balance⟩ :
        BacktestState) ⟨"a", Side.ask, pa, s, t2, false, none, none⟩ t2).1 =
      ⟨⟨0, 0, st0.position.realizedPnl + s * (pa - pb), st0.position.unrealizedPnl⟩,
        st0.balance + s * (pa - pb)⟩ := by
    simp [fillOrder, hs, hsz, abs_of_pos hs, abs_neg, min_self, not_lt.2 hs.le]
  refine ⟨rfl, rfl, ?_, ?_, mul_pos hs (sub_pos.2 hab), ?_⟩ <;>
    rw [e1, e2]

/-- Witness for `backtest_round_trip_ok`: buy 1 at 10, sell 1 at 12, from
a flat 100-balance state: PnL 2. -/
theorem backtest_round_trip_ok_witness :
    (fillOrder ⟨⟨0, 0, 0, 0⟩, 100⟩ ⟨"b", Side.bid, 10, 1, 0, false, none, none⟩ 0).2.fillPrice =
      some 10 ∧
    (fillOrder (fillOrder ⟨⟨0, 0, 0, 0⟩, 100⟩
        ⟨"b", Side.bid, 10, 1, 0, false, none, none⟩ 0).1
        ⟨"a", Side.ask, 12, 1, 0, false, none, none⟩ 0).2.fillPrice = some 12 ∧
    (fillOrder (fillOrder ⟨⟨0, 0, 0, 0⟩, 100⟩
        ⟨"b", Side.bid, 10, 1, 0, false, none, none⟩ 0).1
        ⟨"a", Side.ask, 12, 1, 0, false, none, none⟩ 0).1.balance =
      (⟨⟨0, 0, 0, 0⟩, 100⟩ : BacktestState).balance + 1 * (12 - 10) ∧
    (fillOrder (fillOrder ⟨⟨0, 0, 0, 0⟩, 100⟩
        ⟨"b", Side.bid, 10, 1, 0, false, none, none⟩ 0).1
        ⟨"a", Side.ask, 12, 1, 0, false, none, none⟩ 0).1.position.realizedPnl =
      (⟨⟨0, 0, 0, 0⟩, 100⟩ : BacktestState).position.realizedPnl + 1 * (12 - 10) ∧
    (0 : ℚ) < 1 * (12 - 10) ∧
    (fillOrder (fillOrder ⟨⟨0, 0, 0, 0⟩, 100⟩
        ⟨"b", Side.bid, 10, 1, 0, false, none, none⟩ 0).1
        ⟨"a", Side.ask, 12, 1, 0, false, none, none⟩ 0).1.position.size = 0 :=
  backtest_round_trip_ok ⟨⟨0, 0, 0, 0⟩, 100⟩ 1 10 12 0 0 rfl (by norm_num) (by norm_num)

/-- Membership of `getD` under the length bound. -/
theorem getD_mem_of_lt (l : List ℚ) (k : ℕ) (hk : k < l.length) : l.getD k 0 ∈ l := by
  rw [List.getD_eq_getElem?_getD, List.getElem?_eq_getElem hk]
  exact List.getElem_mem hk

/-- In a sorted list, if at least `k+1` entries are `≤ x` then the entry at
index `k` is `≤ x`. -/
theorem sorted_getD_le_of_countP (l : List ℚ) (hs : l.Sorted (· ≤ ·)) (k : ℕ) (x : ℚ)
    (h : k + 1 ≤ l.countP (fun y => decide (y ≤ x))) : l.getD k 0 ≤ x := by
  induction l generalizing k with
  | nil => simp at h
  | cons a t ih =>
    rw [List.sorted_cons] at hs
    cases k with
    | zero =>
      rw [List.getD_cons_zero]
      by_contra hax
      push_neg at hax
      have hz : (a :: t).countP (fun y => decide (y ≤ x)) = 0 := by
        rw [List.countP_eq_zero]
        intro b hb
        simp only [decide_eq_true_eq, not_le]
        rcases List.mem_cons.1 hb with rfl | hbt
        · exact hax
        · exact lt_of_lt_of_le hax (hs.1 b hbt)
      omega
    | succ k =>
      rw [List.getD_cons_succ]
      apply ih hs.2
      rw [List.countP_cons] at h
      split at h <;> omega

/-- In a sorted list, at least `k+1` entries are `≤` the entry at index
`k`. -/
theorem sorted_le_countP_getD (l : List ℚ) (hs : l.Sorted (· ≤ ·)) (k : ℕ)
    (hk : k < l.length) : k + 1 ≤ l.countP (fun y => decide (y ≤ l.getD k 0)) := by
  induction l generalizing k with
  | nil => simp at hk
  | cons a t ih =>
    rw [List.sorted_cons] at hs
    cases k with
    | zero =>
      rw [List.getD_cons_zero, List.countP_cons]
      simp
    | succ k =>
      have hk' : k < t.length := by simpa using hk
      have iht := ih hs.2 k hk'
      rw [List.getD_cons_succ, List.countP_cons]
      have ha : decide (a ≤ t.getD k 0) = true := by
        simp only [decide_eq_true_eq]
        exact hs.1 _ (getD_mem_of_lt t k hk')
      simp only [ha, if_true]
      omega

/-- Pointwise domination lowers the count of entries below any cutoff. -/
theorem countP_le_of_forall₂ (b a : List ℚ) (h : List.Forall₂ (· ≤ ·) b a) (x : ℚ) :
    a.countP (fun y => decide (y ≤ x)) ≤ b.countP (fun y => decide (y ≤ x)) := by
  induction h with
  | nil => simp
  | @cons b₀ a₀ tb ta hba _ ih =>
    rw [List.countP_cons, List.countP_cons]
    have key : (if decide (a₀ ≤ x) then 1 else 0) ≤ (if decide (b₀ ≤ x) then 1 else 0) := by
      by_cases hax : a₀ ≤ x
      · simp [hax, le_trans hba hax]
      · simp [hax]
    exact Nat.add_le_add ih key

/-- Order statistics are monotone under pointwise domination: the `k`-th
entry of the ascending sort of `b` is at most the `k`-th entry of the
ascending sort of `a` when `b` is pointwise `≤ a`. -/
theorem sortAsc_getD_mono (b a : List ℚ) (h : List.Forall₂ (· ≤ ·) b a) (k : ℕ)
    (hk : k < a.length) : (sortAsc b).getD k 0 ≤ (sortAsc a).getD k 0 := by
  have hpa := sortAsc_perm a
  have hpb := sortAsc_perm b
  have hka : k < (sortAsc a).length := by rw [hpa.length_eq]; exact hk
  have h1 : k + 1 ≤ (sortAsc a).countP (fun y => decide (y ≤ (sortAsc a).getD k 0)) :=
    sorted_le_countP_getD _ (sortAsc_sorted a) k hka
  have h2 : k + 1 ≤ a.countP (fun y => decide (y ≤ (sortAsc a).getD k 0)) := by
    rw [← hpa.countP_eq]
    exact h1
  have h3 := le_trans h2 (countP_le_of_forall₂ b a h _)
  have h4 : k + 1 ≤ (sortAsc b).countP (fun y => decide (y ≤ (sortAsc a).getD k 0)) := by
    rw [hpb.countP_eq]
    exact h3
  exact sorted_getD_le_of_countP _ (sortAsc_sorted b) k _ h4

/-- Sources with `bid ≤ ask` give pointwise-dominated bid/ask columns. -/
theorem forall₂_map_bid_ask (ps : List ExchangePrice) (h : ∀ p ∈ ps, p.bid ≤ p.ask) :
    List.Forall₂ (· ≤ ·) (ps.map (·.bid)) (ps.map (·.ask)) := by
  induction ps with
  | nil => constructor
  | cons p t ih =>
    simp only [List.map_cons]
    exact List.Forall₂.cons (h p (List.mem_cons_self p t))
      (ih fun q hq => h q (List.mem_cons_of_mem p hq))

/-- C6: for a non-empty source list, aggregation returns, for bid, ask and
mid independently, the element at index `⌊n/2⌋` of the ascending-sorted
column (stated against any sorted permutation of that column), with
`spread = (ask − bid)/mid`, the mean volume, the compound source tag, and
the current timestamp. -/
theorem aggregatePrices_median_ok (now : ℤ) (ps : List ExchangePrice) (hne : ps ≠ [])
    (lb la lm : List ℚ)
    (hpb : List.Perm lb (ps.map (·.bid))) (hsb : lb.Sorted (· ≤ ·))
    (hpa : List.Perm la (ps.map (·.ask))) (hsa : la.Sorted (· ≤ ·))
    (hpm : List.Perm lm (ps.map (·.mid))) (hsm : lm.Sorted (· ≤ ·)) :
    (aggregatePrices now ps).bid = lb.getD (ps.length / 2) 0 ∧
    (aggregatePrices now ps).ask = la.getD (ps.length / 2) 0 ∧
    (aggregatePrices now ps).mid = lm.getD (ps.length / 2) 0 ∧
    (aggregatePrices now ps).spread =
      ((aggregatePrices now ps).ask - (aggregatePrices now ps).bid) /
        (aggregatePrices now ps).mid ∧
    (aggregatePrices now ps).volume24h =
      (ps.map (·.volume24h)).sum / (ps.length : ℚ) ∧
    (aggregatePrices now ps).source =
      "aggregated(" ++ String.intercalate "," (ps.map (·.source)) ++ ")" ∧
    (aggregatePrices now ps).timestamp = now := by
  have eb : sortAsc (ps.map (·.bid)) = lb :=
    List.eq_of_perm_of_sorted ((sortAsc_perm _).trans hpb.symm) (sortAsc_sorted _) hsb
  have ea : sortAsc (ps.map (·.ask)) = la :=
    List.eq_of_perm_of_sorted ((sortAsc_perm _).trans hpa.symm) (sortAsc_sorted _) hsa
  have em : sortAsc (ps.map (·.mid)) = lm :=
    List.eq_of_perm_of_sorted ((sortAsc_perm _).trans hpm.symm) (sortAsc_sorted _) hsm
  refine ⟨?_, ?_, ?_, rfl, ?_, rfl, rfl⟩
  · show (sortAsc (ps.map (·.bid))).getD (ps.length / 2) 0 = lb.getD (ps.length / 2) 0
    rw [eb]
  · show (sortAsc (ps.map (·.ask))).getD (ps.length / 2) 0 = la.getD (ps.length / 2) 0
    rw [ea]
  · show (sortAsc (ps.map (·.mid))).getD (ps.length / 2) 0 = lm.getD (ps.length / 2) 0
    rw [em]
  · show ps.foldl (fun s p => s + p.volume24h) 0 / (ps.length : ℚ) =
      (ps.map (·.volume24h)).sum / (ps.length : ℚ)
    rw [foldl_volume_eq_sum]

/-- Witness for `aggregatePrices_median_ok` at three sources. -/
theorem aggregatePrices_median_ok_witness :
    (aggregatePrices 0 oracleSamples).bid =
      ([1, 2, 3] : List ℚ).getD (oracleSamples.length / 2) 0 ∧
    (aggregatePrices 0 oracleSamples).ask =
      ([4, 5, 6] : List ℚ).getD (oracleSamples.length / 2) 0 ∧
    (aggregatePrices 0 oracleSamples).mid =
      ([4, 5, 6] : List ℚ).getD (oracleSamples.length / 2) 0 ∧
    (aggregatePrices 0 oracleSamples).spread =
      ((aggregatePrices 0 oracleSamples).ask - (aggregatePrices 0 oracleSamples).bid) /
        (aggregatePrices 0 oracleSamples).mid ∧
    (aggregatePrices 0 oracleSamples).volume24h =
      (oracleSamples.map (·.volume24h)).sum / (oracleSamples.length : ℚ) ∧
    (aggregatePrices 0 oracleSamples).source =
      "aggregated(" ++ String.intercalate "," (oracleSamples.map (·.source)) ++ ")" ∧
    (aggregatePrices 0 oracleSamples).timestamp = 0 :=
  aggregatePrices_median_ok 0 oracleSamples (by simp [oracleSamples])
    [1, 2, 3] [4, 5, 6] [4, 5, 6]
    (by decide) (by decide) (by decide) (by decide) (by decide) (by decide)

/-- C9 (implicit): when every individual source satisfies `bid ≤ ask`, the
aggregated price also satisfies `bid ≤ ask`, even though the two medians
are taken independently over per-field sorted lists. -/
theorem aggregate_bid_le_ask (now : ℤ) (ps : List ExchangePrice) (hne : ps ≠ [])
    (h : ∀ p ∈ ps, p.bid ≤ p.ask) :
    (aggregatePrices now ps).bid ≤ (aggregatePrices now ps).ask := by
  have hlen : 0 < ps.length := List.length_pos.2 hne
  have hk : ps.length / 2 < (ps.map (·.ask)).length := by
    rw [List.length_map]
    exact Nat.div_lt_self hlen (by norm_num)
  exact sortAsc_getD_mono (ps.map (·.bid)) (ps.map (·.ask))
    (forall₂_map_bid_ask ps h) (ps.length / 2) hk

/-- Witness for `aggregate_bid_le_ask` at the three concrete sources. -/
theorem aggregate_bid_le_ask_witness :
    (aggregatePrices 0 oracleSamples).bid ≤ (aggregatePrices 0 oracleSamples).ask :=
  aggregate_bid_le_ask 0 oracleSamples (by simp [oracleSamples])
    (by intro p hp; fin_cases hp <;> norm_num [oracleSamples])

end MM
